import Mathlib

/-!
Shallow embedding of the `rculock` crate (src/src/lib.rs).

The crate provides `RcuLock<T>`, holding the protected value behind
`inner : Atomic<Arc<T>>` (crossbeam epoch pointer) and a
`write_lock : Mutex<()>`.  `read` pins an epoch, loads `inner`, unwraps it
and clones the `Arc`.  `write` locks the mutex, loads and unwraps `inner`
and clones the underlying `T` into an `RcuGuard` that also owns the mutex
guard.  Dropping the guard wraps the staged data in a fresh
`Owned::new(Arc::new(..))` and stores it into `inner` (no retirement of the
previous pointer is performed), then releases the mutex.

We model the boxes ever allocated for `inner` as an append-only `heap`
(addresses are indices), the atomic pointer as `inner : Option Nat`
(`none` models a null pointer, whose unwrap panics), the mutex as a
boolean, a counter of atomic stores into `inner`, and the list of
addresses handed to the epoch reclamation subsystem (`epoch::unlinked`),
which the source never calls.  Heap cells are never mutated or removed:
the source never frees a superseded box, and mutation is impossible since
each box holds an `Arc<T>` that is only ever cloned.

Executions interleave the operations of the public API on one lock:
`Op.write` (acquire, blocking if the mutex is held), `Op.set v` /
`Op.modify f` (writes through the guard's `DerefMut`), and `Op.drop`
(release / publish).  `read` is a pure observation and needs no step.
-/

variable {T : Type}

structure RcuLock (T : Type) where
  heap : List T
  inner : Option Nat
  writeLocked : Bool
  storeCount : Nat
  retired : List Nat
deriving DecidableEq

/-- The staged private copy held by an `RcuGuard` (its `data : T` field).
The `lock` back-reference and the mutex guard are represented by the
configuration the guard lives in. -/
structure RcuGuard (T : Type) where
  data : T
deriving DecidableEq

/-- A lock together with the write guards currently alive for it. -/
structure Config (T : Type) where
  lock : RcuLock T
  guards : List (RcuGuard T)
deriving DecidableEq

/-- `RcuLock::new`: allocate one box holding the initial value and store it
into `inner` (one atomic store). -/
def RcuLock.new (target : T) : RcuLock T :=
  { heap := [target]
  , inner := some 0
  , writeLocked := false
  , storeCount := 1
  , retired := [] }

/-- The shared reference a reader obtains: `read` loads `inner` and clones
the `Arc` found there, so a read handle is (a reference-counted alias of)
the box at the loaded address. -/
def RcuLock.readHandle (l : RcuLock T) : Option Nat :=
  l.inner

/-- Dereferencing a handle to box `a`: the value stored in that box. -/
def RcuLock.handleDeref (l : RcuLock T) (a : Nat) : Option T :=
  l.heap[a]?

/-- `RcuLock::read`: load `inner`, unwrap (`none` result models the panic on
a null pointer) and dereference. -/
def RcuLock.read (l : RcuLock T) : Option T :=
  l.readHandle.bind fun a => l.handleDeref a

/-- One API call on the lock (besides the pure `read`). -/
inductive Op (T : Type) where
  | write
  | set (v : T)
  | modify (f : T → T)
  | drop

/-- Outcome of a call: a new configuration, a thread parked on the writer
mutex, or a panic (the `unwrap` of a null `inner`, or guard access with no
live guard, which the Rust borrow checker rules out statically). -/
inductive StepResult (T : Type) where
  | ok (c : Config T)
  | blocked
  | panic
deriving DecidableEq

/-- Semantics of one call, following src/src/lib.rs:
* `write` (lines 68-77): lock the mutex (block if held), load and unwrap
  `inner`, clone the pointed-to value into a fresh guard;
* `set` / `modify` (`DerefMut`, lines 86-90): mutate the guard's private
  `data`;
* `drop` (lines 100-105): box `Arc::new(self.data.clone())`, store it into
  `inner` (one atomic store, no retirement enqueued, previous address left
  unreclaimed), then release the mutex (the `MutexGuard` field drops last). -/
def step (c : Config T) : Op T → StepResult T
  | .write =>
    if c.lock.writeLocked then .blocked
    else
      match c.lock.read with
      | none => .panic
      | some v =>
        .ok { lock := { c.lock with writeLocked := true }
            , guards := ⟨v⟩ :: c.guards }
  | .set v =>
    match c.guards with
    | [] => .panic
    | _ :: gs => .ok { c with guards := ⟨v⟩ :: gs }
  | .modify f =>
    match c.guards with
    | [] => .panic
    | g :: gs => .ok { c with guards := ⟨f g.data⟩ :: gs }
  | .drop =>
    match c.guards with
    | [] => .panic
    | g :: gs =>
      .ok { lock := { heap := c.lock.heap ++ [g.data]
                    , inner := some c.lock.heap.length
                    , writeLocked := false
                    , storeCount := c.lock.storeCount + 1
                    , retired := c.lock.retired }
          , guards := gs }

/-- A fresh lock with no guards out. -/
def Config.init (target : T) : Config T :=
  { lock := RcuLock.new target, guards := [] }

/-- Run one call, keeping only successful outcomes. -/
def stepOk (c : Config T) (op : Op T) : Option (Config T) :=
  match step c op with
  | .ok c' => some c'
  | _ => none

/-- Run a sequence of calls. -/
def runOps : Config T → List (Op T) → Option (Config T)
  | c, [] => some c
  | c, op :: ops => (stepOk c op).bind fun c' => runOps c' ops

/-- Is the call a guard release? -/
def Op.isDrop : Op T → Bool
  | .drop => true
  | _ => false

/-- No call in the list publishes (drops a guard). -/
def noDrop (ops : List (Op T)) : Bool :=
  ops.all fun op => ! op.isDrop

/-- Configurations reachable from a freshly constructed lock. -/
inductive Reachable : Config T → Prop where
  | base (target : T) : Reachable (Config.init target)
  | next {c c' : Config T} (op : Op T) :
      Reachable c → step c op = .ok c' → Reachable c'

/-- The lock's invariant: `inner` is a valid non-null pointer, the mutex is
held exactly while a guard is alive, at most one guard is alive, and
nothing has been handed to the reclamation subsystem. -/
def LockInv (c : Config T) : Prop :=
  (∃ a, c.lock.inner = some a ∧ a < c.lock.heap.length) ∧
  c.lock.writeLocked = !c.guards.isEmpty ∧
  c.guards.length ≤ 1 ∧
  c.lock.retired = []

theorem lockInv_init (t : T) : LockInv (Config.init t) := by
  refine ⟨⟨0, rfl, ?_⟩, rfl, by simp [Config.init, RcuLock.new], rfl⟩
  simp [Config.init, RcuLock.new]

theorem lockInv_step {c c' : Config T} {op : Op T}
    (h : step c op = .ok c') (hc : LockInv c) : LockInv c' := by
  obtain ⟨⟨a, ha, hlt⟩, hw, hlen, hr⟩ := hc
  cases op with
  | write =>
    simp only [step] at h
    split at h
    · exact absurd h (by simp)
    · rename_i hfree
      split at h
      · exact absurd h (by simp)
      · cases h
        have hempty : c.guards = [] := by
          rw [Bool.not_eq_true] at hfree
          rw [hfree] at hw
          cases hg : c.guards with
          | nil => rfl
          | cons g gs => rw [hg] at hw; simp at hw
        exact ⟨⟨a, ha, hlt⟩, by simp, by simp [hempty], hr⟩
  | set v =>
    simp only [step] at h
    split at h
    · exact absurd h (by simp)
    · rename_i g gs heq
      cases h
      refine ⟨⟨a, ha, hlt⟩, ?_, ?_, hr⟩
      · rw [hw, heq]; simp
      · have h1 := hlen; rw [heq] at h1; simpa using h1
  | modify f =>
    simp only [step] at h
    split at h
    · exact absurd h (by simp)
    · rename_i g gs heq
      cases h
      refine ⟨⟨a, ha, hlt⟩, ?_, ?_, hr⟩
      · rw [hw, heq]; simp
      · have h1 := hlen; rw [heq] at h1; simpa using h1
  | drop =>
    simp only [step] at h
    split at h
    · exact absurd h (by simp)
    · rename_i g gs heq
      cases h
      have hgs : gs = [] := by
        rw [heq] at hlen
        simp only [List.length_cons] at hlen
        exact List.length_eq_zero.mp (Nat.le_zero.mp (Nat.succ_le_succ_iff.mp hlen))
      refine ⟨⟨c.lock.heap.length, rfl, by simp⟩, by simp [hgs], by simp [hgs], hr⟩

theorem lockInv_reachable {c : Config T} (h : Reachable c) : LockInv c := by
  induction h with
  | base t => exact lockInv_init t
  | next op _ hstep ih => exact lockInv_step hstep ih

theorem read_init (t : T) : (Config.init t).lock.read = some t := rfl

/-- Shape of a successful write acquisition: the mutex was free, the current
value was loaded, and the new guard stages a clone of it. -/
theorem step_write_ok {c c' : Config T} (h : step c Op.write = .ok c') :
    ∃ v, c.lock.writeLocked = false ∧ c.lock.read = some v ∧
      c' = { lock := { c.lock with writeLocked := true }
           , guards := ⟨v⟩ :: c.guards } := by
  simp only [step] at h
  split at h
  · exact absurd h (by simp)
  · rename_i hfree
    split at h
    · exact absurd h (by simp)
    · rename_i v hv
      cases h
      exact ⟨v, Bool.not_eq_true _ ▸ hfree, hv, rfl⟩

/-- Shape of a successful guard drop: a guard was alive, its staged data is
boxed at a fresh address which is stored into `inner`, the store counter
goes up by one, nothing is retired, and the mutex is released. -/
theorem step_drop_ok {c c' : Config T} (h : step c Op.drop = .ok c') :
    ∃ g gs, c.guards = g :: gs ∧
      c' = { lock := { heap := c.lock.heap ++ [g.data]
                     , inner := some c.lock.heap.length
                     , writeLocked := false
                     , storeCount := c.lock.storeCount + 1
                     , retired := c.lock.retired }
           , guards := gs } := by
  simp only [step] at h
  split at h
  · exact absurd h (by simp)
  · rename_i g gs heq
    cases h
    exact ⟨g, gs, heq, rfl⟩

/-- Any step other than a guard drop leaves the published value unchanged:
`write` only flips the mutex, `set`/`modify` only touch the guard's
private copy. -/
theorem read_step_eq {c c' : Config T} {op : Op T}
    (hop : op.isDrop = false) (h : step c op = .ok c') :
    c'.lock.read = c.lock.read := by
  cases op with
  | write =>
    obtain ⟨v, _, _, rfl⟩ := step_write_ok h
    rfl
  | set v =>
    simp only [step] at h
    split at h
    · exact absurd h (by simp)
    · cases h; rfl
  | modify f =>
    simp only [step] at h
    split at h
    · exact absurd h (by simp)
    · cases h; rfl
  | drop => simp [Op.isDrop] at hop

/-- A step never disturbs an existing box: the heap is only ever extended. -/
theorem handleDeref_step {c c' : Config T} {op : Op T} {a : Nat} {v : T}
    (h : step c op = .ok c') (hv : c.lock.handleDeref a = some v) :
    c'.lock.handleDeref a = some v := by
  cases op with
  | write =>
    obtain ⟨w, _, _, rfl⟩ := step_write_ok h
    exact hv
  | set w =>
    simp only [step] at h
    split at h
    · exact absurd h (by simp)
    · cases h; exact hv
  | modify f =>
    simp only [step] at h
    split at h
    · exact absurd h (by simp)
    · cases h; exact hv
  | drop =>
    obtain ⟨g, gs, heq, rfl⟩ := step_drop_ok h
    have hlt : a < c.lock.heap.length := by
      have := hv
      simp only [RcuLock.handleDeref] at this
      exact (List.getElem?_eq_some.mp this).1
    simp only [RcuLock.handleDeref] at hv ⊢
    rw [List.getElem?_append, if_pos hlt]
    exact hv

/-- Runs never disturb an existing box. -/
theorem runOps_handleDeref {ops : List (Op T)} {c c' : Config T} {a : Nat}
    {v : T} (h : runOps c ops = some c')
    (hv : c.lock.handleDeref a = some v) :
    c'.lock.handleDeref a = some v := by
  induction ops generalizing c with
  | nil =>
    simp only [runOps] at h
    cases h; exact hv
  | cons op ops ih =>
    simp only [runOps, stepOk] at h
    rcases hs : step c op with c₁ | _ | _ <;> rw [hs] at h <;>
      simp only [Option.bind] at h
    · exact ih h (handleDeref_step hs hv)
    · exact absurd h (by simp)
    · exact absurd h (by simp)

/-- A run containing no guard drop leaves the published value unchanged. -/
theorem runOps_read_eq {ops : List (Op T)} {c c' : Config T}
    (hops : noDrop ops = true) (h : runOps c ops = some c') :
    c'.lock.read = c.lock.read := by
  induction ops generalizing c with
  | nil =>
    simp only [runOps] at h
    cases h; rfl
  | cons op ops ih =>
    simp only [noDrop, List.all_cons, Bool.and_eq_true, Bool.not_eq_true'] at hops
    simp only [runOps, stepOk] at h
    rcases hs : step c op with c₁ | _ | _ <;> rw [hs] at h <;>
      simp only [Option.bind] at h
    · have h1 : c'.lock.read = c₁.lock.read := ih (by simp [noDrop, hops.2]) h
      rw [h1, read_step_eq hops.1 hs]
    · exact absurd h (by simp)
    · exact absurd h (by simp)


/-- `RcuLock::new(5)` after `write()`: the guard stages a clone of the
published 5 and the mutex is held. -/
def cfgWrite5 : Config Nat :=
  { lock := { heap := [5]
            , inner := some 0
            , writeLocked := true
            , storeCount := 1
            , retired := [] }
  , guards := [⟨5⟩] }

/-- `RcuLock::new(5)` after `write()` and `*guard = 4`: the staged copy is
4, the published value still 5. -/
def cfgStaged4 : Config Nat :=
  { lock := { heap := [5]
            , inner := some 0
            , writeLocked := true
            , storeCount := 1
            , retired := [] }
  , guards := [⟨4⟩] }

/-- `cfgStaged4` after the guard dropped: 4 published in a fresh box, the
superseded box still allocated, nothing retired. -/
def cfgPub4 : Config Nat :=
  { lock := { heap := [5, 4]
            , inner := some 1
            , writeLocked := false
            , storeCount := 2
            , retired := [] }
  , guards := [] }

/-- `RcuLock::new(5)` after one write cycle with no mutation. -/
def cfgCycle5 : Config Nat :=
  { lock := { heap := [5, 5]
            , inner := some 1
            , writeLocked := false
            , storeCount := 2
            , retired := [] }
  , guards := [] }

/-- C1: once a guard whose staged value at release is `V` is dropped, `read`
returns exactly `V`, and keeps returning `V` across any further calls that
do not themselves drop a guard — no intermediate state is ever returned,
only the published `V`, until a later release publishes a new value. -/
theorem claim_C1 {c c' : Config T} {g : RcuGuard T} {gs : List (RcuGuard T)}
    (hg : c.guards = g :: gs) (hd : step c Op.drop = .ok c') :
    c'.lock.read = some g.data ∧
    ∀ ops c'', noDrop ops = true → runOps c' ops = some c'' →
      c''.lock.read = some g.data := by
  obtain ⟨g', gs', hg', rfl⟩ := step_drop_ok hd
  rw [hg] at hg'
  injection hg' with h1 h2
  subst h1
  subst h2
  have hread : ({ lock := { heap := c.lock.heap ++ [g.data]
                          , inner := some c.lock.heap.length
                          , writeLocked := false
                          , storeCount := c.lock.storeCount + 1
                          , retired := c.lock.retired }
                , guards := gs } : Config T).lock.read = some g.data := by
    simp [RcuLock.read, RcuLock.readHandle, RcuLock.handleDeref,
      List.getElem?_concat_length]
  refine ⟨hread, fun ops c'' hops hrun => ?_⟩
  rw [runOps_read_eq hops hrun, hread]

/-- C1 instantiated: lock at value 5 with staged 4; dropping the guard makes
`read` return 4, and it still returns 4 while a further writer has acquired
but not released. -/
theorem claim_C1_witness :
    cfgPub4.lock.read = some 4 ∧
    ∀ c'', runOps cfgPub4 [Op.write, Op.set 0] = some c'' →
      c''.lock.read = some 4 := by
  have hd : step cfgStaged4 Op.drop = .ok cfgPub4 := by decide
  have h := claim_C1 (c := cfgStaged4) (g := ⟨4⟩) rfl hd
  exact ⟨h.1, fun c'' hrun => h.2 [Op.write, Op.set 0] c'' (by decide) hrun⟩

/-- C2: a live writer's mutations are invisible: after a write acquisition,
any run of calls that never drops a guard (in particular any sequence of
`set`/`modify` on the guard) leaves `read` at the value that was published
at the moment of acquisition. -/
theorem claim_C2 {c c₁ c₂ : Config T} {ops : List (Op T)}
    (hw : step c Op.write = .ok c₁)
    (hops : noDrop ops = true)
    (hrun : runOps c₁ ops = some c₂) :
    c₂.lock.read = c.lock.read := by
  rw [runOps_read_eq hops hrun]
  exact @read_step_eq T c c₁ Op.write rfl hw

/-- C2 instantiated (the spec's scenario): initial value 5, acquire write
and set 4 — `read` still returns 5. -/
theorem claim_C2_witness :
    step (Config.init (5:Nat)) Op.write = .ok cfgWrite5 ∧
    runOps cfgWrite5 [Op.set 4] = some cfgStaged4 ∧
    cfgStaged4.lock.read = some 5 := by
  have hw : step (Config.init (5:Nat)) Op.write = .ok cfgWrite5 := by decide
  have hr : runOps cfgWrite5 [Op.set 4] = some cfgStaged4 := by decide
  refine ⟨hw, hr, ?_⟩
  rw [claim_C2 hw (by decide) hr]
  rfl

/-- C3: sequential writes compose without lost updates: every write
acquisition stages exactly the currently published value (the value left by
the most recent release), and in the spec's scenario — writer A sets 4 and
releases, writer B decrements the staged value and releases — a read after
B returns 3. -/
theorem claim_C3 :
    (∀ (S : Type) (c c' : Config S), step c Op.write = .ok c' →
      (c'.guards.head?).map RcuGuard.data = c.lock.read) ∧
    (runOps (Config.init (5:Nat))
        [Op.write, Op.set 4, Op.drop,
         Op.write, Op.modify (fun x => x - 1), Op.drop]).map
      (fun c => c.lock.read) = some (some 3) := by
  constructor
  · intro S c c' h
    obtain ⟨v, _, hv, rfl⟩ := step_write_ok h
    simp [hv]
  · rfl

/-- C3 instantiated: the acquisition on a fresh lock stages the published
value, and the A-then-B scenario reads 3. -/
theorem claim_C3_witness :
    ((cfgWrite5.guards.head?).map RcuGuard.data
        = (Config.init (5:Nat)).lock.read) ∧
    (runOps (Config.init (5:Nat))
        [Op.write, Op.set 4, Op.drop,
         Op.write, Op.modify (fun x => x - 1), Op.drop]).map
      (fun c => c.lock.read) = some (some 3) :=
  ⟨claim_C3.1 Nat (Config.init 5) cfgWrite5 (by decide), claim_C3.2⟩

/-- C4: `write` clones the published value into the guard's private staging
area: the guard initially dereferences to exactly what `read` returned at
acquisition, the acquisition itself does not change the published value,
and mutating the staged copy leaves the published value untouched
(independence of the two copies). -/
theorem claim_C4 {c c' : Config T} (h : step c Op.write = .ok c') :
    (c'.guards.head?).map RcuGuard.data = c.lock.read ∧
    c'.lock.read = c.lock.read ∧
    ∀ v c'', step c' (Op.set v) = .ok c'' → c''.lock.read = c'.lock.read := by
  obtain ⟨w, hfree, hv, rfl⟩ := step_write_ok h
  refine ⟨by simp [hv], rfl, fun v c'' hs => ?_⟩
  exact @read_step_eq T _ c'' (Op.set v) rfl hs

/-- C4 instantiated at a fresh lock holding 5, mutating the staged copy
to 4. -/
theorem claim_C4_witness :
    step (Config.init (5:Nat)) Op.write = .ok cfgWrite5 ∧
    (cfgWrite5.guards.head?).map RcuGuard.data = some 5 ∧
    cfgWrite5.lock.read = some 5 ∧
    ∀ c'', step cfgWrite5 (Op.set 4) = .ok c'' → c''.lock.read = some 5 := by
  have hw : step (Config.init (5:Nat)) Op.write = .ok cfgWrite5 := by decide
  have h := claim_C4 hw
  refine ⟨hw, by rw [h.1]; rfl, by rw [h.2.1]; rfl, fun c'' hs => ?_⟩
  rw [h.2.2 4 c'' hs, h.2.1]
  rfl

/-- C5: the never-null invariant: in every reachable configuration `inner`
holds a valid non-null pointer, so the `unwrap` inside `read` cannot fail
(`read` is `some`) and a `write` call never panics on its load — it either
proceeds or blocks on the mutex. -/
theorem claim_C5 {c : Config T} (h : Reachable c) :
    (∃ a, c.lock.inner = some a ∧ a < c.lock.heap.length) ∧
    (c.lock.read).isSome = true ∧
    step c Op.write ≠ StepResult.panic := by
  obtain ⟨⟨a, ha, hlt⟩, _, _, _⟩ := lockInv_reachable h
  have hread : (c.lock.read).isSome = true := by
    simp [RcuLock.read, RcuLock.readHandle, RcuLock.handleDeref, ha,
      List.getElem?_eq_getElem hlt]
  refine ⟨⟨a, ha, hlt⟩, hread, ?_⟩
  simp only [step]
  split
  · simp
  · split
    · rename_i hnone
      rw [hnone] at hread
      simp at hread
    · simp

/-- C5 instantiated at the reachable configuration obtained from
`RcuLock::new(5)` by one full write cycle. -/
theorem claim_C5_witness :
    (cfgCycle5.lock.read).isSome = true := by
  have h1 : step (Config.init (5:Nat)) Op.write = .ok cfgWrite5 := by decide
  have h2 : step cfgWrite5 Op.drop = .ok cfgCycle5 := by decide
  exact (claim_C5 (Reachable.next Op.drop
    (Reachable.next Op.write (Reachable.base 5) h1) h2)).2.1

/-- C6: read handles are insulated from later writes: if a reader holds a
handle to box `a` containing `v`, then after any successful run of further
calls on the lock (including full write/publish cycles) the handle still
dereferences to `v` — later writes install fresh boxes and never modify
previously handed-out ones. -/
theorem claim_C6 {c c' : Config T} {a : Nat} {v : T} {ops : List (Op T)}
    (hh : c.lock.readHandle = some a)
    (hv : c.lock.handleDeref a = some v)
    (hrun : runOps c ops = some c') :
    c'.lock.handleDeref a = some v :=
  runOps_handleDeref hrun hv

/-- C6 instantiated: a handle to the initial box of `RcuLock::new(5)` still
reads 5 after a full write cycle that published 4. -/
theorem claim_C6_witness :
    runOps (Config.init (5:Nat)) [Op.write, Op.set 4, Op.drop]
        = some cfgPub4 ∧
    cfgPub4.lock.handleDeref 0 = some 5 ∧ cfgPub4.lock.read = some 4 := by
  have hr : runOps (Config.init (5:Nat)) [Op.write, Op.set 4, Op.drop]
      = some cfgPub4 := by decide
  exact ⟨hr, claim_C6 (c := Config.init (5:Nat)) (a := 0) rfl rfl hr,
    by decide⟩

/-- C7 counterexample: one full write cycle (acquire then release) on a
fresh lock enqueues zero retirements, not exactly one: `Drop for RcuGuard`
only stores the new pointer and never hands the previous version to the
reclamation subsystem. -/
theorem claim_C7_counterexample :
    (runOps (Config.init (5:Nat)) [Op.write, Op.drop]).map
        (fun c => c.lock.retired.length) = some 0 ∧
    ¬ (runOps (Config.init (5:Nat)) [Op.write, Op.drop]).map
        (fun c => c.lock.retired.length) = some 1 := by
  constructor <;> decide

/-- C7 (amended): each release performs exactly one atomic store into the
lock's `current` slot but enqueues zero retirements — the previous version
is never handed to the reclamation subsystem (it is leaked).  Beyond the
freshly appended box, the updated pointer, the store count and the released
mutex, no lock state is touched and the remaining guards are unchanged. -/
theorem claim_C7_amended {c c' : Config T} {g : RcuGuard T}
    {gs : List (RcuGuard T)} (hg : c.guards = g :: gs)
    (hd : step c Op.drop = .ok c') :
    c'.lock.storeCount = c.lock.storeCount + 1 ∧
    c'.lock.retired = c.lock.retired ∧
    c'.lock.heap = c.lock.heap ++ [g.data] ∧
    c'.lock.inner = some c.lock.heap.length ∧
    c'.lock.writeLocked = false ∧
    c'.guards = gs := by
  obtain ⟨g', gs', hg', rfl⟩ := step_drop_ok hd
  rw [hg] at hg'
  injection hg' with h1 h2
  subst h1
  subst h2
  exact ⟨rfl, rfl, rfl, rfl, rfl, rfl⟩

/-- C7 (amended) instantiated on the staged-4 configuration. -/
theorem claim_C7_amended_witness :
    cfgPub4.lock.storeCount = cfgStaged4.lock.storeCount + 1 ∧
    cfgPub4.lock.retired = cfgStaged4.lock.retired ∧
    cfgPub4.lock.heap = cfgStaged4.lock.heap ++ [4] ∧
    cfgPub4.lock.inner = some cfgStaged4.lock.heap.length ∧
    cfgPub4.lock.writeLocked = false ∧
    cfgPub4.guards = [] := by
  have hd : step cfgStaged4 Op.drop = .ok cfgPub4 := by decide
  exact claim_C7_amended (c := cfgStaged4) (g := ⟨4⟩) rfl hd

/-- `n` write/release cycles, none of them mutating the staged copy. -/
def writeCycles : Nat → List (Op Nat)
  | 0 => []
  | n + 1 => Op.write :: Op.drop :: writeCycles n

/-- Running `n` no-op write cycles from a clean configuration publishing 5
with `m + 1` live boxes: every cycle allocates one more box and retires
nothing. -/
theorem runOps_writeCycles (n : Nat) : ∀ m : Nat,
    runOps { lock := { heap := List.replicate (m + 1) (5:Nat)
                     , inner := some m
                     , writeLocked := false
                     , storeCount := m + 1
                     , retired := [] }
           , guards := [] } (writeCycles n) =
      some { lock := { heap := List.replicate (n + m + 1) (5:Nat)
                     , inner := some (n + m)
                     , writeLocked := false
                     , storeCount := n + m + 1
                     , retired := [] }
           , guards := [] } := by
  induction n with
  | zero => intro m; simp [writeCycles, runOps]
  | succ n ih =>
    intro m
    have hread : ({ heap := List.replicate (m + 1) (5:Nat)
                  , inner := some m
                  , writeLocked := false
                  , storeCount := m + 1
                  , retired := [] } : RcuLock Nat).read = some 5 := by
      simp [RcuLock.read, RcuLock.readHandle, RcuLock.handleDeref,
        List.getElem?_replicate, Nat.lt_succ_self]
    have hcycle : runOps
        ({ lock := { heap := List.replicate (m + 1) (5:Nat)
                   , inner := some m
                   , writeLocked := false
                   , storeCount := m + 1
                   , retired := [] }
         , guards := [] } : Config Nat) (writeCycles (n + 1)) =
        runOps { lock := { heap := List.replicate (m + 2) (5:Nat)
                         , inner := some (m + 1)
                         , writeLocked := false
                         , storeCount := m + 2
                         , retired := [] }
               , guards := [] } (writeCycles n) := by
      simp only [writeCycles, runOps, stepOk, step, hread]
      show runOps { lock := { heap := List.replicate (m + 1) (5:Nat) ++ [5]
                            , inner :=
                                some (List.replicate (m + 1) (5:Nat)).length
                            , writeLocked := false
                            , storeCount := m + 1 + 1
                            , retired := [] }
                  , guards := [] } (writeCycles n) = _
      rw [← List.replicate_succ' (m + 1) (5:Nat), List.length_replicate]
    rw [hcycle, ih (m + 1)]
    have e1 : n + (m + 1) = n + 1 + m := by omega
    rw [e1]

/-- C8: the code leaks every superseded version.  With zero pinned readers,
after `n` write cycles on `RcuLock::new(5)` all `n + 1` boxes ever
allocated are still live and the reclamation queue is empty: memory held by
superseded versions grows with the total number of writes instead of being
bounded by the number of concurrently pinned readers, and no retired
version is ever freed. -/
theorem claim_C8_leak (n : Nat) :
    runOps (Config.init (5:Nat)) (writeCycles n) =
      some { lock := { heap := List.replicate (n + 1) (5:Nat)
                     , inner := some n
                     , writeLocked := false
                     , storeCount := n + 1
                     , retired := [] }
           , guards := [] } := by
  have h0 := runOps_writeCycles n 0
  simpa [Config.init, RcuLock.new] using h0

/-- C9: writer mutual exclusion: in every reachable configuration at most
one write guard is alive, and while one is alive a further `write()` call
blocks on the writer mutex instead of producing a second guard; only the
drop of the live guard (which releases the mutex) lets the next writer
proceed. -/
theorem claim_C9 {c : Config T} (h : Reachable c) :
    c.guards.length ≤ 1 ∧
    (c.guards ≠ [] → step c Op.write = StepResult.blocked) := by
  obtain ⟨_, hw, hlen, _⟩ := lockInv_reachable h
  refine ⟨hlen, fun hne => ?_⟩
  have hlock : c.lock.writeLocked = true := by
    rw [hw]
    cases hg : c.guards with
    | nil => exact absurd hg hne
    | cons g gs => simp
  simp [step, hlock]

/-- C9 instantiated: with the guard of `write()` on `RcuLock::new(5)` still
alive, a second `write()` blocks. -/
theorem claim_C9_witness :
    step cfgWrite5 Op.write = StepResult.blocked := by
  have h1 : step (Config.init (5:Nat)) Op.write = .ok cfgWrite5 := by decide
  exact (claim_C9 (Reachable.next Op.write (Reachable.base 5) h1)).2
    (by decide)

/-- C10: no-op write round trip: if the writer mutex is free and `v` is the
published value, then acquiring `write()` and dropping the guard without
mutating the staged copy succeeds, and `read` still returns `v` — although
a fresh version box (a new address) has been installed in `current`. -/
theorem claim_C10 {c : Config T} {v : T}
    (hfree : c.lock.writeLocked = false)
    (hv : c.lock.read = some v) :
    ∃ c', runOps c [Op.write, Op.drop] = some c' ∧
      c'.lock.read = some v ∧ c'.lock.inner ≠ c.lock.inner := by
  obtain ⟨a, ha, hva⟩ :
      ∃ a, c.lock.inner = some a ∧ c.lock.handleDeref a = some v := by
    rcases hi : c.lock.inner with _ | a
    · rw [RcuLock.read, RcuLock.readHandle, hi] at hv
      simp at hv
    · refine ⟨a, rfl, ?_⟩
      rw [RcuLock.read, RcuLock.readHandle, hi] at hv
      simpa using hv
  have hlt : a < c.lock.heap.length := by
    rw [RcuLock.handleDeref] at hva
    exact (List.getElem?_eq_some.mp hva).1
  refine ⟨{ lock := { heap := c.lock.heap ++ [v]
                    , inner := some c.lock.heap.length
                    , writeLocked := false
                    , storeCount := c.lock.storeCount + 1
                    , retired := c.lock.retired }
          , guards := c.guards }, ?_, ?_, ?_⟩
  · simp only [runOps, stepOk, step, hfree, hv]
    rfl
  · simp [RcuLock.read, RcuLock.readHandle, RcuLock.handleDeref,
      List.getElem?_concat_length]
  · rw [ha]
    intro heq
    injection heq with h1
    omega

/-- C10 instantiated at a fresh lock publishing 5: the round trip keeps
`read` at 5 but installs a fresh box. -/
theorem claim_C10_witness :
    ∃ c', runOps (Config.init (5:Nat)) [Op.write, Op.drop] = some c' ∧
      c'.lock.read = some 5 ∧
      c'.lock.inner ≠ (Config.init (5:Nat)).lock.inner :=
  claim_C10 rfl rfl
